import Mathlib

/-!
Shallow embedding of the NightCAN driver (`src/night_can.c`, `src/night_can.h`)
of longhorn-lib-2025, STM32H733xx build (the live preprocessor branch: the
STM32L4xx branches reference identifiers that do not exist in this revision).

Modelling conventions:
* C pointers to user packets are modelled as identifiers (`PacketId := Nat`)
  together with a heap `PacketId → NightCANPacket`; pointer equality in the
  source (`tx_schedule[i] == packet`) becomes equality of identifiers.
* Machine integers are `Nat` with explicit `% 2^32` where the source relies on
  unsigned wraparound (`current_time_ms - packet->_last_tx_time_ms`).
* HAL calls (hardware) are external collaborators: their outcomes enter the
  model as explicit parameters (`HALStatus` oracles, `Bool` step outcomes).
* Byte buffers are total functions `Nat → Nat` (each value a byte); `memcpy`
  and the pointer-cast accessors become explicit little-endian byte reads and
  writes (the target is little-endian ARM).
-/

namespace NightCAN

/-- Status codes, from `CANDriverStatus` in night_can.h. -/
inductive CANDriverStatus where
  | CAN_OK
  | CAN_ERROR
  | CAN_BUSY
  | CAN_TIMEOUT
  | CAN_BUFFER_FULL
  | CAN_BUFFER_EMPTY
  | CAN_INVALID_PARAM
  | CAN_NOT_FOUND
  | CAN_INSTANCE_NULL
  | CAN_MAX_INSTANCES_REACHED
  deriving DecidableEq, Repr

export CANDriverStatus (CAN_OK CAN_ERROR CAN_BUSY CAN_TIMEOUT CAN_BUFFER_FULL
  CAN_BUFFER_EMPTY CAN_INVALID_PARAM CAN_NOT_FOUND CAN_INSTANCE_NULL
  CAN_MAX_INSTANCES_REACHED)

/-- Outcome of a HAL transmit call (`HAL_FDCAN_AddMessageToTxFifoQ`), an
external collaborator: `HAL_OK`, `HAL_BUSY`, or any other error code. -/
inductive HALStatus where
  | HAL_OK
  | HAL_BUSY
  | HAL_ERROR
  deriving DecidableEq, Repr

/-- Capacity of the receive ring buffer (`CAN_RX_BUFFER_SIZE` in night_can.h). -/
def CAN_RX_BUFFER_SIZE : Nat := 32

/-- Capacity of the transmit schedule (`CAN_TX_SCHEDULE_SIZE` in night_can.h). -/
def CAN_TX_SCHEDULE_SIZE : Nat := 16

/-- Registry capacity (`MAX_CAN_INSTANCES` in night_can.h). -/
def MAX_CAN_INSTANCES : Nat := 2

/-- Modulus of `uint32_t` arithmetic. -/
def U32 : Nat := 2 ^ 32

/-- Wraparound-tolerant unsigned subtraction: for `a b < 2^32` this equals the
C expression `(uint32_t)(a - b)`. -/
def u32sub (a b : Nat) : Nat := (a + U32 - b) % U32

/-- Transmit descriptor, from `NightCANPacket` in night_can.h.  The 8-byte
payload is a total byte function; `_is_scheduled` and `_last_tx_time_ms` keep
their meaning (leading underscore dropped for Lean). -/
structure NightCANPacket where
  id : Nat
  ide : Nat
  rtr : Nat
  dlc : Nat
  data : Nat → Nat
  tx_interval_ms : Nat
  last_tx_time_ms : Nat
  is_scheduled : Bool

/-- Identifier standing for a `NightCANPacket *`. -/
abbrev PacketId := Nat

/-- Heap of user-owned packets, indexed by pointer identity. -/
abbrev Heap := PacketId → NightCANPacket

/-- Update of the packet heap at one pointer. -/
def heapUpdate (h : Heap) (p : PacketId) (pk : NightCANPacket) : Heap :=
  fun q => if q = p then pk else h q

/-- Transmit-side state of a `NightCANDriverInstance`: the `initialized` flag,
whether the `hcan` HAL handle is non-NULL, and the `tx_schedule` array together
with `tx_schedule_count` (entries `0 .. count-1`, in order). -/
structure TxInstance where
  initialized : Bool
  hcanPresent : Bool
  tx_schedule : List PacketId

/-- Result mapping of `send_immediate` (night_can.c lines 119-182): instance
and `initialized` checks, the `hcan` NULL check, then the HAL transmit call
whose outcome is the external parameter `hal`. -/
def send_immediate (inst : TxInstance) (hal : HALStatus) : CANDriverStatus :=
  if inst.initialized = false then CAN_INSTANCE_NULL
  else if inst.hcanPresent = false then CAN_ERROR
  else
    match hal with
    | HALStatus.HAL_OK => CAN_OK
    | HALStatus.HAL_BUSY => CAN_BUSY
    | HALStatus.HAL_ERROR => CAN_ERROR

/-- Loop body of `CAN_Service` (night_can.c lines 421-439) over the schedule.
Returns the final heap and the list of packets for which a one-shot send was
attempted, in iteration order.  A send is attempted when the packet is
scheduled, has a positive interval, and `now - _last_tx_time_ms >=
tx_interval_ms` in `uint32_t` arithmetic; `_last_tx_time_ms` is set to `now`
only when `send_immediate` returns `CAN_OK`. -/
def serviceLoop (inst : TxInstance) (now : Nat) (hal : PacketId → HALStatus) :
    Heap → List PacketId → Heap × List PacketId
  | heap, [] => (heap, [])
  | heap, p :: rest =>
    let pk := heap p
    if pk.is_scheduled = true ∧ 0 < pk.tx_interval_ms ∧
        pk.tx_interval_ms ≤ u32sub now pk.last_tx_time_ms then
      let heap' :=
        if send_immediate inst (hal p) = CAN_OK then
          heapUpdate heap p { pk with last_tx_time_ms := now }
        else heap
      let r := serviceLoop inst now hal heap' rest
      (r.1, p :: r.2)
    else
      serviceLoop inst now hal heap rest

/-- Model of `CAN_Service` (night_can.c lines 414-452): early return when the
instance is absent, uninitialized, or has no HAL handle; otherwise the loop
over the schedule.  `now` is `lib_timer_elapsed_ms()` and `hal` gives the HAL
outcome of the (at most one) transmit attempt per scheduled packet. -/
def CAN_Service (inst : TxInstance) (heap : Heap) (now : Nat)
    (hal : PacketId → HALStatus) : Heap × List PacketId :=
  if inst.initialized = true ∧ inst.hcanPresent = true then
    serviceLoop inst now hal heap inst.tx_schedule
  else (heap, [])

/-- Model of `CAN_AddTxPacket` (night_can.c lines 320-357).  The packet
pointer itself is assumed non-NULL (NULL packet pointers are outside the heap
model).  Returns the new instance, the new heap, and the status.  `hal` is the
HAL outcome used when the one-shot path fires. -/
def CAN_AddTxPacket (inst : TxInstance) (heap : Heap) (p : PacketId)
    (now : Nat) (hal : HALStatus) : TxInstance × Heap × CANDriverStatus :=
  if inst.initialized = false then (inst, heap, CAN_INSTANCE_NULL)
  else if 8 < (heap p).dlc then (inst, heap, CAN_INVALID_PARAM)
  else if (heap p).tx_interval_ms = 0 then (inst, heap, send_immediate inst hal)
  else if CAN_TX_SCHEDULE_SIZE ≤ inst.tx_schedule.length then
    (inst, heap, CAN_BUFFER_FULL)
  else if p ∈ inst.tx_schedule then
    -- already scheduled: `tx_schedule[i]->tx_interval_ms = packet->tx_interval_ms`
    -- is a self-assignment through the shared pointer; `_is_scheduled` is set.
    (inst,
     heapUpdate heap p
       { heap p with tx_interval_ms := (heap p).tx_interval_ms,
                     is_scheduled := true },
     CAN_OK)
  else
    ({ inst with tx_schedule := inst.tx_schedule ++ [p] },
     heapUpdate heap p
       { heap p with last_tx_time_ms := now, is_scheduled := true },
     CAN_OK)

/-- Model of `CAN_RemoveScheduledTxPacket` (night_can.c lines 362-385): linear
search by pointer identity; on a hit, clear `_is_scheduled`, shift the
following entries left by one (that is, erase the first occurrence), decrement
the count, return `CAN_OK`; otherwise `CAN_NOT_FOUND`. -/
def CAN_RemoveScheduledTxPacket (inst : TxInstance) (heap : Heap)
    (p : PacketId) : TxInstance × Heap × CANDriverStatus :=
  if inst.initialized = false then (inst, heap, CAN_INSTANCE_NULL)
  else if p ∈ inst.tx_schedule then
    ({ inst with tx_schedule := inst.tx_schedule.erase p },
     heapUpdate heap p { heap p with is_scheduled := false },
     CAN_OK)
  else (inst, heap, CAN_NOT_FOUND)

/-- Caller-side mutation of a user packet's `tx_interval_ms` field between two
`CAN_AddTxPacket` calls (the application owns the packet). -/
def setInterval (heap : Heap) (p : PacketId) (v : Nat) : Heap :=
  heapUpdate heap p { heap p with tx_interval_ms := v }

/-! ## Receive ring buffer (night_can.c lines 45-111, 391-409)

The .c revision stores `NightCANReceivePacket` values in a ring
`rx_buffer[CAN_RX_BUFFER_SIZE]` addressed by `rx_buffer_head` (next write)
and `rx_buffer_tail` (next read).  The struct fields are the union of the two
revisions' declarations; `add_to_rx_buffer` assigns exactly the fields the .c
assigns and leaves the rest of the slot's old memory in place. -/

/-- Receive descriptor, from `NightCANReceivePacket` in night_can.h. -/
structure NightCANReceivePacket where
  id : Nat
  ide : Nat
  rtr : Nat
  dlc : Nat
  data : Nat → Nat
  timestamp_ms : Nat
  timeout_ms : Nat
  is_recent : Bool
  is_timed_out : Bool
  filter_index : Nat

/-- Hardware receive header, from `FDCAN_RxHeaderTypeDef` (the fields the
driver reads in the STM32H733xx branch). -/
structure FDCAN_RxHeader where
  Identifier : Nat
  IdType : Nat
  DataLength : Nat
  FilterIndex : Nat

/-- Receive-side state of a `NightCANDriverInstance`: the ring of slots, the
head and tail indices, and the overflow counter.  Slots are addressed by plain
`Nat` (the C array index). -/
structure RxState where
  rx_buffer : Nat → NightCANReceivePacket
  rx_buffer_head : Nat
  rx_buffer_tail : Nat
  rx_overflow_count : Nat

/-- Full test of `is_rx_buffer_full` (night_can.c lines 45-49). -/
def is_rx_buffer_full (s : RxState) : Bool :=
  (s.rx_buffer_head + 1) % CAN_RX_BUFFER_SIZE == s.rx_buffer_tail

/-- Empty test of `is_rx_buffer_empty` (night_can.c lines 56-60). -/
def is_rx_buffer_empty (s : RxState) : Bool :=
  s.rx_buffer_head == s.rx_buffer_tail

/-- Clamped copy length `len_to_copy` (night_can.c line 105):
`(packet->dlc > 8) ? 8 : packet->dlc`. -/
def len_to_copy (dlc : Nat) : Nat := if 8 < dlc then 8 else dlc

/-- Byte-level `memcpy(dest, src, len)` into an 8-byte field: indices below
`len` take the source bytes, the rest keep the destination's old memory. -/
def copyBytes (dest src : Nat → Nat) (len : Nat) : Nat → Nat :=
  fun i => if i < len then src i else dest i

/-- Slot contents written by `add_to_rx_buffer` (night_can.c lines 98-109,
STM32H733xx branch): the header fields, the timestamp `now`
(`lib_timer_elapsed_ms()`), and the clamped `memcpy` of the payload; fields
the code does not assign keep the slot's previous values. -/
def mkRxPacket (old : NightCANReceivePacket) (hdr : FDCAN_RxHeader)
    (rx_data : Nat → Nat) (now : Nat) : NightCANReceivePacket :=
  { old with
    id := hdr.Identifier
    ide := hdr.IdType
    dlc := hdr.DataLength
    timestamp_ms := now
    filter_index := hdr.FilterIndex
    data := copyBytes old.data rx_data (len_to_copy hdr.DataLength) }

/-- Model of `add_to_rx_buffer` (night_can.c lines 68-111): when the ring is
full the frame is discarded and `rx_overflow_count` incremented (drop-newest
policy); otherwise the slot at `rx_buffer_head` is filled and the head
advances with wraparound. -/
def add_to_rx_buffer (s : RxState) (hdr : FDCAN_RxHeader)
    (rx_data : Nat → Nat) (now : Nat) : RxState :=
  if is_rx_buffer_full s then
    { s with rx_overflow_count := s.rx_overflow_count + 1 }
  else
    { s with
      rx_buffer := fun j =>
        if j = s.rx_buffer_head then
          mkRxPacket (s.rx_buffer s.rx_buffer_head) hdr rx_data now
        else s.rx_buffer j
      rx_buffer_head := (s.rx_buffer_head + 1) % CAN_RX_BUFFER_SIZE }

/-- Model of `CAN_GetReceivedPacket` (night_can.c lines 391-409), the FIFO
variant: `none` stands for the `CAN_BUFFER_EMPTY` return, `some pkt` for the
`CAN_OK` return with `*received_packet` copied from the tail slot, after which
the tail advances with wraparound. -/
def CAN_GetReceivedPacket (s : RxState) :
    RxState × Option NightCANReceivePacket :=
  if is_rx_buffer_empty s then (s, none)
  else
    ({ s with rx_buffer_tail := (s.rx_buffer_tail + 1) % CAN_RX_BUFFER_SIZE },
     some (s.rx_buffer s.rx_buffer_tail))

/-- Number of stored frames, derived from the indices: `(head + C - tail) mod
C` for capacity `C = CAN_RX_BUFFER_SIZE`. -/
def rxCount (s : RxState) : Nat :=
  (s.rx_buffer_head + CAN_RX_BUFFER_SIZE - s.rx_buffer_tail) %
    CAN_RX_BUFFER_SIZE

/-- All-zero receive slot: the instance struct is cleared by `memset` in
`CAN_Init`, so every slot starts zeroed. -/
def zeroRxPacket : NightCANReceivePacket :=
  { id := 0, ide := 0, rtr := 0, dlc := 0, data := fun _ => 0,
    timestamp_ms := 0, timeout_ms := 0, is_recent := false,
    is_timed_out := false, filter_index := 0 }

/-- Receive state right after `CAN_Init`: zeroed slots, `head = tail = 0`,
no overflows. -/
def initRxState : RxState :=
  { rx_buffer := fun _ => zeroRxPacket, rx_buffer_head := 0,
    rx_buffer_tail := 0, rx_overflow_count := 0 }

/-- One receive-side event: an inbound hardware frame (routed through
`add_to_rx_buffer`) or a `CAN_GetReceivedPacket` call. -/
inductive RxOp where
  | add (hdr : FDCAN_RxHeader) (rx_data : Nat → Nat) (now : Nat)
  | get

/-- Run of a sequence of receive-side events; returns the final state and the
frames returned by the successful `get` calls, in order. -/
def runRx : RxState → List RxOp → RxState × List NightCANReceivePacket
  | s, [] => (s, [])
  | s, RxOp.add hdr d now :: rest => runRx (add_to_rx_buffer s hdr d now) rest
  | s, RxOp.get :: rest =>
    let r := CAN_GetReceivedPacket s
    let t := runRx r.1 rest
    (t.1, r.2.toList ++ t.2)

/-- Frames actually written into the ring along a run (frames dropped by the
overflow policy are never written). -/
def writtenRx : RxState → List RxOp → List NightCANReceivePacket
  | _, [] => []
  | s, RxOp.add hdr d now :: rest =>
    (if is_rx_buffer_full s then []
     else [mkRxPacket (s.rx_buffer s.rx_buffer_head) hdr d now]) ++
      writtenRx (add_to_rx_buffer s hdr d now) rest
  | s, RxOp.get :: rest => writtenRx (CAN_GetReceivedPacket s).1 rest

/-! ## Instance registry and `CAN_Init` (night_can.c lines 17-38, 190-315)

The registry is the global array `g_can_instances` with counter
`g_active_instances`; entries beyond the counter are NULL, so the pair is
modelled as the list of registered instance identifiers in registration
order.  Instance structs live in a store `Nat → InitInstance`.  The HAL setup
calls of the STM32H733xx branch that can fail are
`HAL_FDCAN_ActivateNotification` and `HAL_FDCAN_Start` (the filter
configuration calls are commented out in this revision); their outcomes are
the external parameters `notifOk` and `startOk`. -/

/-- Identifier standing for a `NIGHTCAN_HANDLE_TYPEDEF *` (HAL handle). -/
abbrev Handle := Nat

/-- Identifier standing for a `NightCANDriverInstance *`. -/
abbrev InstId := Nat

/-- Lifecycle-relevant state of a `NightCANDriverInstance`: the bound HAL
handle (set by `CAN_Init`) and the `initialized` flag. -/
structure InitInstance where
  hcan : Option Handle
  initialized : Bool
  deriving DecidableEq, Repr

/-- Store of instance structs, indexed by pointer identity. -/
abbrev InstStore := InstId → InitInstance

/-- Update of the instance store at one pointer. -/
def storeUpdate (st : InstStore) (i : InstId) (v : InitInstance) : InstStore :=
  fun q => if q = i then v else st q

/-- Model of `find_instance` (night_can.c lines 29-38): scan the registry in
registration order and return the first instance whose `hcan` equals the given
handle (registry entries below the counter are never NULL). -/
def find_instance (reg : List InstId) (st : InstStore) (h : Handle) :
    Option InstId :=
  reg.find? (fun i => (st i).hcan == some h)

/-- Model of `CAN_Init` (night_can.c lines 190-315, STM32H733xx branch).
`inst?`/`hcan?` are `none` for NULL pointers.  Steps: parameter checks,
capacity check, the duplicate-handle `find_instance` check (whose result the
source discards — the `if` body is empty), `memset` of the instance and
binding of `hcan`, registration (append), then the fallible HAL setup steps;
each HAL failure decrements the counter and NULLs the slot (restoring the
pre-call registry) and returns `CAN_ERROR`; on success `initialized` is set
and `CAN_OK` returned. -/
def CAN_Init (reg : List InstId) (st : InstStore) (inst? : Option InstId)
    (hcan? : Option Handle) (notifOk startOk : Bool) :
    List InstId × InstStore × CANDriverStatus :=
  match inst? with
  | none => (reg, st, CAN_INVALID_PARAM)
  | some inst =>
    match hcan? with
    | none => (reg, st, CAN_INVALID_PARAM)
    | some h =>
      if MAX_CAN_INSTANCES ≤ reg.length then
        (reg, st, CAN_MAX_INSTANCES_REACHED)
      else
        -- `if (find_instance(hcan) != NULL) { }` : result discarded
        let st1 := storeUpdate st inst { hcan := some h, initialized := false }
        let reg1 := reg ++ [inst]
        if notifOk = false then (reg1.dropLast, st1, CAN_ERROR)
        else if startOk = false then (reg1.dropLast, st1, CAN_ERROR)
        else (reg1, storeUpdate st1 inst { hcan := some h, initialized := true },
              CAN_OK)

/-! ## Fixed-offset payload codec (night_can.h lines 250-317)

The pointer-cast accessors `*(T*)((uint8_t*)data + start)` are modelled as
little-endian byte reads/writes of `width = sizeof(T)` bytes for unsigned
integer types `T` (the target is little-endian ARM).  Floats are modelled in
exact rational arithmetic; the C float-to-integer cast `(T)(value/precision)`
truncates toward zero. -/

/-- Little-endian read of `width` bytes starting at `start`. -/
def readBytesLE (data : Nat → Nat) : Nat → Nat → Nat
  | _, 0 => 0
  | start, w + 1 => data start + 256 * readBytesLE data (start + 1) w

/-- Little-endian write of the `width`-byte value `n` starting at `start`. -/
def writeBytesLE (data : Nat → Nat) (start width n : Nat) : Nat → Nat :=
  fun i =>
    if start ≤ i ∧ i < start + width then n / 256 ^ (i - start) % 256
    else data i

/-- Truncation toward zero of a rational, the semantics of C's float-to-integer
cast. -/
def truncToZero (q : ℚ) : ℤ := if 0 ≤ q then ⌊q⌋ else -⌊-q⌋

/-- Model of the `CAN_readInt` macro (night_can.h lines 250-253): when
`is_recent` holds, the unsigned `width`-byte integer at `start_byte`; otherwise
the caller-supplied `default` argument. -/
def CAN_readInt (pkt : NightCANReceivePacket) (start_byte width dflt : Nat) :
    Nat :=
  if pkt.is_recent = true then readBytesLE pkt.data start_byte width else dflt

/-- Model of the `CAN_writeInt` macro (night_can.h lines 268-270) on a data
buffer: store the `width`-byte value at `start_byte`. -/
def CAN_writeInt (data : Nat → Nat) (start_byte width value : Nat) :
    Nat → Nat :=
  writeBytesLE data start_byte width value

/-- Model of the `CAN_writeFloat` macro (night_can.h lines 291-293) on a data
buffer: store `(T)(value / precision)` — truncation toward zero — as a
`width`-byte unsigned integer at `start_byte`. -/
def CAN_writeFloat (data : Nat → Nat) (start_byte width : Nat)
    (value precision : ℚ) : Nat → Nat :=
  writeBytesLE data start_byte width (truncToZero (value / precision)).toNat

/-- Model of the `CAN_readFloat` macro (night_can.h lines 313-317): when
`is_recent` holds, the stored integer scaled by `precision`; otherwise the
literal `0.0f` — the macro's `default` parameter is not used in its body. -/
def CAN_readFloat (pkt : NightCANReceivePacket) (start_byte width : Nat)
    (precision dflt : ℚ) : ℚ :=
  if pkt.is_recent = true then
    (readBytesLE pkt.data start_byte width : ℚ) * precision
  else 0

/-! ## Transmit-side lemmas -/

@[simp]
theorem heapUpdate_same (h : Heap) (p : PacketId) (pk : NightCANPacket) :
    heapUpdate h p pk p = pk := by
  simp [heapUpdate]

theorem heapUpdate_ne (h : Heap) (p q : PacketId) (pk : NightCANPacket)
    (hq : q ≠ p) : heapUpdate h p pk q = h q := by
  simp [heapUpdate, hq]

theorem serviceLoop_sent_subset (inst : TxInstance) (now : Nat)
    (hal : PacketId → HALStatus) (l : List PacketId) :
    ∀ heap : Heap, (serviceLoop inst now hal heap l).2 ⊆ l := by
  induction l with
  | nil => intro heap; simp [serviceLoop]
  | cons q rest ih =>
    intro heap
    simp only [serviceLoop]
    split
    · intro x hx
      rcases List.mem_cons.mp hx with h | h
      · simp [h]
      · exact List.mem_cons_of_mem _ (ih _ h)
    · intro x hx
      exact List.mem_cons_of_mem _ (ih _ hx)

theorem serviceLoop_heap_not_mem (inst : TxInstance) (now : Nat)
    (hal : PacketId → HALStatus) (p : PacketId) (l : List PacketId) :
    ∀ heap : Heap, p ∉ l → (serviceLoop inst now hal heap l).1 p = heap p := by
  induction l with
  | nil => intro heap _; simp [serviceLoop]
  | cons q rest ih =>
    intro heap hp
    have hpq : p ≠ q := fun h => hp (h ▸ List.mem_cons_self q rest)
    have hpr : p ∉ rest := fun h => hp (List.mem_cons_of_mem q h)
    simp only [serviceLoop]
    split
    · split
      · simpa [ih _ hpr] using heapUpdate_ne heap q p _ hpq
      · exact ih _ hpr
    · exact ih _ hpr

theorem serviceLoop_skip_unscheduled (inst : TxInstance) (now : Nat)
    (hal : PacketId → HALStatus) (p : PacketId) (l : List PacketId) :
    ∀ heap : Heap, (heap p).is_scheduled = false →
      p ∉ (serviceLoop inst now hal heap l).2 ∧
      (serviceLoop inst now hal heap l).1 p = heap p := by
  induction l with
  | nil => intro heap _; simp [serviceLoop]
  | cons q rest ih =>
    intro heap hns
    by_cases hpq : p = q
    · subst hpq
      simp only [serviceLoop]
      rw [if_neg (by simp [hns])]
      exact ih heap hns
    · simp only [serviceLoop]
      split
      · set heap' :=
          if send_immediate inst (hal q) = CAN_OK then
            heapUpdate heap q { heap q with last_tx_time_ms := now }
          else heap with hheap'
        have hh : heap' p = heap p := by
          rw [hheap']
          split
          · exact heapUpdate_ne heap q p _ hpq
          · rfl
        have hrec := ih heap' (by rw [hh]; exact hns)
        refine ⟨fun hmem => ?_, by rw [hrec.2, hh]⟩
        rcases List.mem_cons.mp hmem with h | h
        · exact hpq h
        · exact hrec.1 h
      · exact ih heap hns

theorem serviceLoop_spec (inst : TxInstance) (now : Nat)
    (hal : PacketId → HALStatus) (p : PacketId) (l : List PacketId) :
    ∀ heap : Heap, l.Nodup → p ∈ l →
      (heap p).is_scheduled = true → 0 < (heap p).tx_interval_ms →
      ((p ∈ (serviceLoop inst now hal heap l).2 ↔
          (heap p).tx_interval_ms ≤ u32sub now (heap p).last_tx_time_ms) ∧
       (serviceLoop inst now hal heap l).1 p =
         if (heap p).tx_interval_ms ≤ u32sub now (heap p).last_tx_time_ms ∧
            send_immediate inst (hal p) = CAN_OK
         then { heap p with last_tx_time_ms := now } else heap p) := by
  induction l with
  | nil => intro heap _ hp; simp at hp
  | cons q rest ih =>
    intro heap hnd hp hs hi
    by_cases hpq : p = q
    · subst hpq
      have hnr : p ∉ rest := (List.nodup_cons.mp hnd).1
      simp only [serviceLoop]
      by_cases hdue :
          (heap p).tx_interval_ms ≤ u32sub now (heap p).last_tx_time_ms
      · rw [if_pos ⟨hs, hi, hdue⟩]
        refine ⟨by simp [hdue], ?_⟩
        by_cases hok : send_immediate inst (hal p) = CAN_OK
        · rw [if_pos hok, if_pos ⟨hdue, hok⟩,
            serviceLoop_heap_not_mem inst now hal p rest _ hnr, heapUpdate_same]
        · rw [if_neg hok, if_neg (by exact fun h => hok h.2),
            serviceLoop_heap_not_mem inst now hal p rest _ hnr]
      · rw [if_neg (by exact fun h => hdue h.2.2)]
        refine ⟨?_, ?_⟩
        · simp only [hdue, iff_false]
          exact fun h => hnr (serviceLoop_sent_subset inst now hal rest heap h)
        · rw [if_neg (by exact fun h => hdue h.1),
            serviceLoop_heap_not_mem inst now hal p rest _ hnr]
    · have hpr : p ∈ rest := by
        rcases List.mem_cons.mp hp with h | h
        · exact absurd h hpq
        · exact h
      have hnr : rest.Nodup := (List.nodup_cons.mp hnd).2
      simp only [serviceLoop]
      split
      · set heap' :=
          if send_immediate inst (hal q) = CAN_OK then
            heapUpdate heap q { heap q with last_tx_time_ms := now }
          else heap with hheap'
        have hh : heap' p = heap p := by
          rw [hheap']
          split
          · exact heapUpdate_ne heap q p _ hpq
          · rfl
        have hrec :=
          ih heap' hnr hpr (by rw [hh]; exact hs) (by rw [hh]; exact hi)
        rw [hh] at hrec
        refine ⟨?_, hrec.2⟩
        rw [← hrec.1]
        simp [List.mem_cons, hpq]
      · exact ih heap hnr hpr hs hi

/-- C1: for an initialized instance (with HAL handle) and a packet of its
schedule with `_is_scheduled` set and a positive interval, `CAN_Service`
attempts a one-shot send exactly when the wraparound-tolerant unsigned
difference `now - _last_tx_time_ms` is at least `tx_interval_ms`, and it sets
`_last_tx_time_ms` to `now` exactly when that send's HAL outcome is `HAL_OK`
(otherwise the packet is left unchanged, so a failed send remains due on the
next `CAN_Service` call). -/
theorem CAN_Service_due_and_retry (inst : TxInstance) (heap : Heap)
    (now : Nat) (hal : PacketId → HALStatus) (p : PacketId)
    (hinit : inst.initialized = true) (hhcan : inst.hcanPresent = true)
    (hnd : inst.tx_schedule.Nodup) (hp : p ∈ inst.tx_schedule)
    (hs : (heap p).is_scheduled = true) (hi : 0 < (heap p).tx_interval_ms) :
    (p ∈ (CAN_Service inst heap now hal).2 ↔
       (heap p).tx_interval_ms ≤ u32sub now (heap p).last_tx_time_ms) ∧
    (CAN_Service inst heap now hal).1 p =
      if (heap p).tx_interval_ms ≤ u32sub now (heap p).last_tx_time_ms ∧
         hal p = HALStatus.HAL_OK
      then { heap p with last_tx_time_ms := now } else heap p := by
  have hsend : (send_immediate inst (hal p) = CAN_OK) = (hal p = HALStatus.HAL_OK) := by
    simp only [send_immediate, hinit, hhcan]
    cases hal p <;> simp
  unfold CAN_Service
  rw [if_pos ⟨hinit, hhcan⟩]
  have h :=
    serviceLoop_spec inst now hal p inst.tx_schedule heap hnd hp hs hi
  simp only [hsend] at h
  exact h

/-- Concrete instance for the C1 witness: one scheduled packet with interval
3 ms, last sent at time 0, serviced at time 3 with a succeeding HAL. -/
def c1Inst : TxInstance :=
  { initialized := true, hcanPresent := true, tx_schedule := [0] }

/-- Concrete heap for the C1 witness. -/
def c1Heap : Heap := fun _ =>
  { id := 0xD0, ide := 0, rtr := 0, dlc := 0, data := fun _ => 0,
    tx_interval_ms := 3, last_tx_time_ms := 0, is_scheduled := true }

/-- Concrete HAL oracle for the C1 witness. -/
def c1Hal : PacketId → HALStatus := fun _ => HALStatus.HAL_OK

/-- Witness for C1 at a concrete input. -/
theorem CAN_Service_due_and_retry_witness :
    (0 ∈ (CAN_Service c1Inst c1Heap 3 c1Hal).2 ↔
       (c1Heap 0).tx_interval_ms ≤ u32sub 3 (c1Heap 0).last_tx_time_ms) ∧
    (CAN_Service c1Inst c1Heap 3 c1Hal).1 0 =
      if (c1Heap 0).tx_interval_ms ≤ u32sub 3 (c1Heap 0).last_tx_time_ms ∧
         c1Hal 0 = HALStatus.HAL_OK
      then { c1Heap 0 with last_tx_time_ms := 3 } else c1Heap 0 :=
  CAN_Service_due_and_retry c1Inst c1Heap 3 c1Hal 0 rfl rfl (by decide)
    (by decide) rfl (by decide)

/-- C4: for an initialized instance and a valid packet (`dlc ≤ 8`) whose
`tx_interval_ms` is 0, `CAN_AddTxPacket` returns the one-shot path's status
and changes nothing: the schedule (count and contents) and the heap are
exactly as before. -/
theorem CAN_AddTxPacket_oneshot (inst : TxInstance) (heap : Heap)
    (p : PacketId) (now : Nat) (hal : HALStatus)
    (hinit : inst.initialized = true) (hdlc : (heap p).dlc ≤ 8)
    (hint : (heap p).tx_interval_ms = 0) :
    CAN_AddTxPacket inst heap p now hal = (inst, heap, send_immediate inst hal) := by
  simp [CAN_AddTxPacket, hinit, Nat.not_lt.mpr hdlc, hint]

/-- Witness for C4 at a concrete input. -/
theorem CAN_AddTxPacket_oneshot_witness :
    CAN_AddTxPacket c1Inst (fun _ => { c1Heap 0 with tx_interval_ms := 0 }) 2
        7 HALStatus.HAL_BUSY =
      (c1Inst, fun _ => { c1Heap 0 with tx_interval_ms := 0 },
       send_immediate c1Inst HALStatus.HAL_BUSY) :=
  CAN_AddTxPacket_oneshot c1Inst (fun _ => { c1Heap 0 with tx_interval_ms := 0 })
    2 7 HALStatus.HAL_BUSY rfl (by decide) rfl

/-- C5: for an initialized instance, `CAN_RemoveScheduledTxPacket` finds the
packet by identity, marks it unscheduled, shifts the subsequent entries left
by one (relative order preserved), decrements the count and returns `CAN_OK`;
a missing packet yields `CAN_NOT_FOUND` with the state unchanged; and after a
successful removal no `CAN_Service` call attempts to send that packet, for any
current time and HAL behaviour. -/
theorem CAN_RemoveScheduledTxPacket_spec (inst : TxInstance) (heap : Heap)
    (p : PacketId) (hinit : inst.initialized = true) :
    (p ∈ inst.tx_schedule →
       (CAN_RemoveScheduledTxPacket inst heap p).2.2 = CAN_OK ∧
       ((CAN_RemoveScheduledTxPacket inst heap p).2.1 p).is_scheduled = false ∧
       (∃ l1 l2, p ∉ l1 ∧ inst.tx_schedule = l1 ++ p :: l2 ∧
          (CAN_RemoveScheduledTxPacket inst heap p).1.tx_schedule = l1 ++ l2) ∧
       (CAN_RemoveScheduledTxPacket inst heap p).1.tx_schedule.length + 1 =
         inst.tx_schedule.length ∧
       (∀ now hal,
          p ∉ (CAN_Service (CAN_RemoveScheduledTxPacket inst heap p).1
                (CAN_RemoveScheduledTxPacket inst heap p).2.1 now hal).2)) ∧
    (p ∉ inst.tx_schedule →
       CAN_RemoveScheduledTxPacket inst heap p = (inst, heap, CAN_NOT_FOUND)) := by
  constructor
  · intro hp
    have hres : CAN_RemoveScheduledTxPacket inst heap p =
        ({ inst with tx_schedule := inst.tx_schedule.erase p },
         heapUpdate heap p { heap p with is_scheduled := false }, CAN_OK) := by
      simp [CAN_RemoveScheduledTxPacket, hinit, hp]
    rw [hres]
    obtain ⟨l1, l2, hnl1, hsplit, herase⟩ := List.exists_erase_eq hp
    refine ⟨rfl, by simp, ⟨l1, l2, hnl1, hsplit, herase⟩, ?_, ?_⟩
    · rw [herase, hsplit]
      simp only [List.length_append, List.length_cons]
      omega
    · intro now hal
      unfold CAN_Service
      split
      · exact (serviceLoop_skip_unscheduled _ now hal p _ _ (by simp)).1
      · simp
  · intro hp
    simp [CAN_RemoveScheduledTxPacket, hinit, hp]

/-- Concrete instance for the C5 witness: schedule `[5, 7]`, remove `7`. -/
def c5Inst : TxInstance :=
  { initialized := true, hcanPresent := true, tx_schedule := [5, 7] }

/-- Witness for C5 at a concrete input: remove a present packet. -/
theorem CAN_RemoveScheduledTxPacket_spec_witness :
    (CAN_RemoveScheduledTxPacket c5Inst c1Heap 7).2.2 = CAN_OK ∧
    ((CAN_RemoveScheduledTxPacket c5Inst c1Heap 7).2.1 7).is_scheduled = false ∧
    (∃ l1 l2, 7 ∉ l1 ∧ c5Inst.tx_schedule = l1 ++ 7 :: l2 ∧
       (CAN_RemoveScheduledTxPacket c5Inst c1Heap 7).1.tx_schedule = l1 ++ l2) ∧
    (CAN_RemoveScheduledTxPacket c5Inst c1Heap 7).1.tx_schedule.length + 1 =
      c5Inst.tx_schedule.length ∧
    (∀ now hal,
       7 ∉ (CAN_Service (CAN_RemoveScheduledTxPacket c5Inst c1Heap 7).1
             (CAN_RemoveScheduledTxPacket c5Inst c1Heap 7).2.1 now hal).2) :=
  (CAN_RemoveScheduledTxPacket_spec c5Inst c1Heap 7 rfl).1 (by decide)

/-- Concrete instance for the C2 counterexample: an initialized instance
whose schedule is at capacity and already contains packet `0`. -/
def c2Inst : TxInstance :=
  { initialized := true, hcanPresent := true, tx_schedule := List.range 16 }

/-- Concrete heap for the C2 counterexample: every packet has a positive
interval and a valid dlc. -/
def c2Heap : Heap := fun _ =>
  { id := 0, ide := 0, rtr := 0, dlc := 0, data := fun _ => 0,
    tx_interval_ms := 5, last_tx_time_ms := 0, is_scheduled := true }

/-- Counterexample to C2 as stated: packet `0` is already in the schedule of
an initialized instance, yet `CAN_AddTxPacket` returns `CAN_BUFFER_FULL`
rather than `CAN_OK`, because the source checks the capacity before the
duplicate check. -/
theorem CAN_AddTxPacket_duplicate_at_capacity_cex :
    c2Inst.initialized = true ∧ 0 ∈ c2Inst.tx_schedule ∧
    0 < (c2Heap 0).tx_interval_ms ∧
    (CAN_AddTxPacket c2Inst c2Heap 0 100 HALStatus.HAL_OK).2.2 =
      CAN_BUFFER_FULL ∧
    (CAN_AddTxPacket c2Inst c2Heap 0 100 HALStatus.HAL_OK).2.2 ≠ CAN_OK := by
  refine ⟨rfl, by decide, by decide, by decide, by decide⟩

/-- C2 amended: for an initialized instance and a valid packet with a positive
interval, the capacity check comes first — a full schedule yields
`CAN_BUFFER_FULL` even for an already-present packet; below capacity an
already-present packet gets its interval updated (a self-assignment through
the shared pointer) and is marked scheduled with `CAN_OK`, and an absent
packet is appended, stamped `_last_tx_time_ms = now`, marked scheduled, with
`CAN_OK`.  Adding the same packet twice (capacity permitting) grows the count
by exactly one and leaves the stored interval equal to the value the packet
carries at the second call. -/
theorem CAN_AddTxPacket_amended (inst : TxInstance) (heap : Heap)
    (p : PacketId) (now now2 : Nat) (hal hal2 : HALStatus) (v2 : Nat)
    (hinit : inst.initialized = true) (hdlc : (heap p).dlc ≤ 8)
    (hpos : 0 < (heap p).tx_interval_ms) :
    (CAN_TX_SCHEDULE_SIZE ≤ inst.tx_schedule.length →
       CAN_AddTxPacket inst heap p now hal = (inst, heap, CAN_BUFFER_FULL)) ∧
    (inst.tx_schedule.length < CAN_TX_SCHEDULE_SIZE → p ∈ inst.tx_schedule →
       CAN_AddTxPacket inst heap p now hal =
         (inst, heapUpdate heap p { heap p with is_scheduled := true },
          CAN_OK)) ∧
    (inst.tx_schedule.length < CAN_TX_SCHEDULE_SIZE → p ∉ inst.tx_schedule →
       CAN_AddTxPacket inst heap p now hal =
         ({ inst with tx_schedule := inst.tx_schedule ++ [p] },
          heapUpdate heap p
            { heap p with last_tx_time_ms := now, is_scheduled := true },
          CAN_OK)) ∧
    (p ∉ inst.tx_schedule → inst.tx_schedule.length + 1 < CAN_TX_SCHEDULE_SIZE →
       0 < v2 →
       (CAN_AddTxPacket inst heap p now hal).2.2 = CAN_OK ∧
       (CAN_AddTxPacket
           (CAN_AddTxPacket inst heap p now hal).1
           (setInterval (CAN_AddTxPacket inst heap p now hal).2.1 p v2)
           p now2 hal2).2.2 = CAN_OK ∧
       (CAN_AddTxPacket
           (CAN_AddTxPacket inst heap p now hal).1
           (setInterval (CAN_AddTxPacket inst heap p now hal).2.1 p v2)
           p now2 hal2).1.tx_schedule.length = inst.tx_schedule.length + 1 ∧
       ((CAN_AddTxPacket
           (CAN_AddTxPacket inst heap p now hal).1
           (setInterval (CAN_AddTxPacket inst heap p now hal).2.1 p v2)
           p now2 hal2).2.1 p).tx_interval_ms = v2 ∧
       ((CAN_AddTxPacket
           (CAN_AddTxPacket inst heap p now hal).1
           (setInterval (CAN_AddTxPacket inst heap p now hal).2.1 p v2)
           p now2 hal2).2.1 p).is_scheduled = true) := by
  have hnd : ¬ 8 < (heap p).dlc := Nat.not_lt.mpr hdlc
  have hni : (heap p).tx_interval_ms ≠ 0 := Nat.pos_iff_ne_zero.mp hpos
  refine ⟨?_, ?_, ?_, ?_⟩
  · intro hful
    simp [CAN_AddTxPacket, hinit, hnd, hni, hful]
  · intro hlen hp
    simp [CAN_AddTxPacket, hinit, hnd, hni, Nat.not_le.mpr hlen, hp]
  · intro hlen hp
    simp [CAN_AddTxPacket, hinit, hnd, hni, Nat.not_le.mpr hlen, hp]
  · intro hp hlen hv2
    have hlen1 : inst.tx_schedule.length < CAN_TX_SCHEDULE_SIZE := by omega
    have h1 : CAN_AddTxPacket inst heap p now hal =
        ({ inst with tx_schedule := inst.tx_schedule ++ [p] },
         heapUpdate heap p
           { heap p with last_tx_time_ms := now, is_scheduled := true },
         CAN_OK) := by
      simp [CAN_AddTxPacket, hinit, hnd, hni, Nat.not_le.mpr hlen1, hp]
    have h16 : CAN_TX_SCHEDULE_SIZE = 16 := rfl
    have hcap2 : ¬ (16 : Nat) ≤ inst.tx_schedule.length + 1 := by omega
    refine ⟨by rw [h1], ?_, ?_, ?_, ?_⟩ <;>
    · rw [h1]
      simp [CAN_AddTxPacket, setInterval, heapUpdate, hinit, hnd,
        Nat.pos_iff_ne_zero.mp hv2, CAN_TX_SCHEDULE_SIZE, hcap2]

/-- Concrete empty-schedule instance for the C2 witness. -/
def c2wInst : TxInstance :=
  { initialized := true, hcanPresent := true, tx_schedule := [] }

/-- Witness for C2 (amended) at a concrete input: the double-add clause with
packet `0`, a first add at time 1 and a second add with interval `7`. -/
theorem CAN_AddTxPacket_amended_witness :
    (CAN_AddTxPacket c2wInst c2Heap 0 1 HALStatus.HAL_OK).2.2 = CAN_OK ∧
    (CAN_AddTxPacket
        (CAN_AddTxPacket c2wInst c2Heap 0 1 HALStatus.HAL_OK).1
        (setInterval (CAN_AddTxPacket c2wInst c2Heap 0 1 HALStatus.HAL_OK).2.1
          0 7)
        0 2 HALStatus.HAL_OK).2.2 = CAN_OK ∧
    (CAN_AddTxPacket
        (CAN_AddTxPacket c2wInst c2Heap 0 1 HALStatus.HAL_OK).1
        (setInterval (CAN_AddTxPacket c2wInst c2Heap 0 1 HALStatus.HAL_OK).2.1
          0 7)
        0 2 HALStatus.HAL_OK).1.tx_schedule.length =
      c2wInst.tx_schedule.length + 1 ∧
    ((CAN_AddTxPacket
        (CAN_AddTxPacket c2wInst c2Heap 0 1 HALStatus.HAL_OK).1
        (setInterval (CAN_AddTxPacket c2wInst c2Heap 0 1 HALStatus.HAL_OK).2.1
          0 7)
        0 2 HALStatus.HAL_OK).2.1 0).tx_interval_ms = 7 ∧
    ((CAN_AddTxPacket
        (CAN_AddTxPacket c2wInst c2Heap 0 1 HALStatus.HAL_OK).1
        (setInterval (CAN_AddTxPacket c2wInst c2Heap 0 1 HALStatus.HAL_OK).2.1
          0 7)
        0 2 HALStatus.HAL_OK).2.1 0).is_scheduled = true :=
  (CAN_AddTxPacket_amended c2wInst c2Heap 0 1 2 HALStatus.HAL_OK
      HALStatus.HAL_OK 7 rfl (by decide) (by decide)).2.2.2
    (by decide) (by decide) (by decide)

def RxBounded (s : RxState) : Prop :=
  s.rx_buffer_head < CAN_RX_BUFFER_SIZE ∧ s.rx_buffer_tail < CAN_RX_BUFFER_SIZE

theorem rxBounded_add (s : RxState) (hdr : FDCAN_RxHeader) (d : Nat → Nat)
    (now : Nat) (hb : RxBounded s) : RxBounded (add_to_rx_buffer s hdr d now) := by
  obtain ⟨h1, h2⟩ := hb
  unfold add_to_rx_buffer
  split
  · exact ⟨h1, h2⟩
  · exact ⟨Nat.mod_lt _ (by simp [CAN_RX_BUFFER_SIZE]), h2⟩

theorem rxBounded_get (s : RxState) (hb : RxBounded s) :
    RxBounded (CAN_GetReceivedPacket s).1 := by
  obtain ⟨h1, h2⟩ := hb
  unfold CAN_GetReceivedPacket
  split
  · exact ⟨h1, h2⟩
  · exact ⟨h1, Nat.mod_lt _ (by simp [CAN_RX_BUFFER_SIZE])⟩

theorem rxBounded_runRx (ops : List RxOp) :
    ∀ s : RxState, RxBounded s → RxBounded (runRx s ops).1 := by
  induction ops with
  | nil => intro s hb; exact hb
  | cons op rest ih =>
    intro s hb
    cases op with
    | add hdr d now => exact ih _ (rxBounded_add s hdr d now hb)
    | get => exact ih _ (rxBounded_get s hb)

theorem is_rx_buffer_full_iff (s : RxState) (hb : RxBounded s) :
    is_rx_buffer_full s = true ↔ rxCount s = CAN_RX_BUFFER_SIZE - 1 := by
  obtain ⟨h1, h2⟩ := hb
  simp only [is_rx_buffer_full, rxCount, CAN_RX_BUFFER_SIZE, beq_iff_eq] at *
  omega

theorem is_rx_buffer_empty_iff (s : RxState) (hb : RxBounded s) :
    is_rx_buffer_empty s = true ↔ rxCount s = 0 := by
  obtain ⟨h1, h2⟩ := hb
  simp only [is_rx_buffer_empty, rxCount, CAN_RX_BUFFER_SIZE, beq_iff_eq] at *
  omega

theorem rxCount_add_full (s : RxState) (hdr : FDCAN_RxHeader) (d : Nat → Nat)
    (now : Nat) (hful : is_rx_buffer_full s = true) :
    rxCount (add_to_rx_buffer s hdr d now) = rxCount s := by
  unfold add_to_rx_buffer
  rw [if_pos hful]
  simp [rxCount]

theorem rxCount_add_notfull (s : RxState) (hdr : FDCAN_RxHeader)
    (d : Nat → Nat) (now : Nat) (hb : RxBounded s)
    (hful : is_rx_buffer_full s = false) :
    rxCount (add_to_rx_buffer s hdr d now) = rxCount s + 1 := by
  obtain ⟨h1, h2⟩ := hb
  unfold add_to_rx_buffer
  rw [hful]
  simp only [Bool.false_eq_true, if_false, rxCount]
  simp only [is_rx_buffer_full, beq_eq_false_iff_ne, ne_eq,
    CAN_RX_BUFFER_SIZE] at hful
  simp only [CAN_RX_BUFFER_SIZE] at *
  omega

theorem rxCount_get_notempty (s : RxState) (hb : RxBounded s)
    (hemp : is_rx_buffer_empty s = false) :
    rxCount (CAN_GetReceivedPacket s).1 = rxCount s - 1 := by
  obtain ⟨h1, h2⟩ := hb
  unfold CAN_GetReceivedPacket
  rw [hemp]
  simp only [Bool.false_eq_true, if_false, rxCount]
  simp only [is_rx_buffer_empty, beq_eq_false_iff_ne, ne_eq,
    CAN_RX_BUFFER_SIZE] at hemp
  simp only [CAN_RX_BUFFER_SIZE] at *
  omega

def RxInv (W : List NightCANReceivePacket) (s : RxState) : Prop :=
  RxBounded s ∧
  ∀ k, k < rxCount s →
    s.rx_buffer ((s.rx_buffer_tail + k) % CAN_RX_BUFFER_SIZE) ∈ W

theorem RxInv_mono (W W' : List NightCANReceivePacket) (s : RxState)
    (hsub : W ⊆ W') (h : RxInv W s) : RxInv W' s :=
  ⟨h.1, fun k hk => hsub (h.2 k hk)⟩

theorem RxInv_add_full (W : List NightCANReceivePacket) (s : RxState)
    (hdr : FDCAN_RxHeader) (d : Nat → Nat) (now : Nat)
    (hful : is_rx_buffer_full s = true) (h : RxInv W s) :
    RxInv W (add_to_rx_buffer s hdr d now) := by
  unfold add_to_rx_buffer
  rw [if_pos hful]
  exact ⟨h.1, fun k hk => h.2 k hk⟩

theorem RxInv_add_notfull (W : List NightCANReceivePacket) (s : RxState)
    (hdr : FDCAN_RxHeader) (d : Nat → Nat) (now : Nat)
    (hful : is_rx_buffer_full s = false) (h : RxInv W s) :
    RxInv (W ++ [mkRxPacket (s.rx_buffer s.rx_buffer_head) hdr d now])
      (add_to_rx_buffer s hdr d now) := by
  obtain ⟨⟨h1, h2⟩, hmem⟩ := h
  have hb' := rxBounded_add s hdr d now ⟨h1, h2⟩
  have hcnt := rxCount_add_notfull s hdr d now ⟨h1, h2⟩ hful
  refine ⟨hb', ?_⟩
  intro k hk
  rw [hcnt] at hk
  have hfu : ¬ (s.rx_buffer_head + 1) % 32 = s.rx_buffer_tail := by
    simpa [is_rx_buffer_full, CAN_RX_BUFFER_SIZE] using hful
  simp only [CAN_RX_BUFFER_SIZE] at h1 h2 ⊢
  have hC : rxCount s = (s.rx_buffer_head + 32 - s.rx_buffer_tail) % 32 := rfl
  unfold add_to_rx_buffer
  rw [if_neg (by simp [hful])]
  simp only []
  by_cases hlast : k = rxCount s
  · have hidx : (s.rx_buffer_tail + k) % 32 = s.rx_buffer_head := by omega
    rw [hidx]
    simp
  · have hklt : k < rxCount s := by omega
    have hidx : ¬ (s.rx_buffer_tail + k) % 32 = s.rx_buffer_head := by omega
    rw [if_neg hidx]
    exact List.mem_append_left _ (by
      simpa [CAN_RX_BUFFER_SIZE] using hmem k hklt)

theorem RxInv_get (W : List NightCANReceivePacket) (s : RxState)
    (h : RxInv W s) :
    RxInv W (CAN_GetReceivedPacket s).1 ∧
    ∀ pkt, (CAN_GetReceivedPacket s).2 = some pkt → pkt ∈ W := by
  obtain ⟨⟨h1, h2⟩, hmem⟩ := h
  by_cases hemp : is_rx_buffer_empty s = true
  · unfold CAN_GetReceivedPacket
    rw [if_pos hemp]
    exact ⟨⟨⟨h1, h2⟩, hmem⟩, by simp⟩
  · have hemp' : is_rx_buffer_empty s = false := by
      simpa using hemp
    have hb' := rxBounded_get s ⟨h1, h2⟩
    have hcnt := rxCount_get_notempty s ⟨h1, h2⟩ hemp'
    have hpos : 0 < rxCount s :=
      Nat.pos_of_ne_zero
        (fun h0 => hemp ((is_rx_buffer_empty_iff s ⟨h1, h2⟩).mpr h0))
    have hne : ¬ s.rx_buffer_head = s.rx_buffer_tail := by
      simpa [is_rx_buffer_empty, CAN_RX_BUFFER_SIZE] using hemp'
    constructor
    · refine ⟨hb', ?_⟩
      intro k hk
      unfold CAN_GetReceivedPacket at hk ⊢
      rw [if_neg (by simp [hemp'])] at hk ⊢
      dsimp only at hk ⊢
      have hpos' : 0 < rxCount s := hpos
      simp only [rxCount, CAN_RX_BUFFER_SIZE] at hk hpos'
      simp only [CAN_RX_BUFFER_SIZE] at h1 h2 ⊢
      have hidx : ((s.rx_buffer_tail + 1) % 32 + k) % 32 =
          (s.rx_buffer_tail + (k + 1)) % 32 := by omega
      have hklt : k + 1 < rxCount s := by
        simp only [rxCount, CAN_RX_BUFFER_SIZE]
        omega
      rw [hidx]
      simpa [CAN_RX_BUFFER_SIZE] using hmem (k + 1) hklt
    · intro pkt hpkt
      unfold CAN_GetReceivedPacket at hpkt
      rw [if_neg (by simp [hemp'])] at hpkt
      simp only [Option.some.injEq] at hpkt
      have := hmem 0 hpos
      simpa [← hpkt, Nat.mod_eq_of_lt h2] using this

theorem runRx_inv (ops : List RxOp) :
    ∀ (s : RxState) (W : List NightCANReceivePacket), RxInv W s →
      RxInv (W ++ writtenRx s ops) (runRx s ops).1 ∧
      ∀ out ∈ (runRx s ops).2, out ∈ W ++ writtenRx s ops := by
  induction ops with
  | nil =>
    intro s W h
    simp only [runRx, writtenRx, List.append_nil]
    exact ⟨h, by simp⟩
  | cons op rest ih =>
    intro s W h
    cases op with
    | add hdr d now =>
      by_cases hful : is_rx_buffer_full s = true
      · have h' := RxInv_add_full W s hdr d now hful h
        have hr := ih (add_to_rx_buffer s hdr d now) W h'
        simp only [runRx, writtenRx, hful, if_true, List.nil_append]
        exact hr
      · have hful' : is_rx_buffer_full s = false := by simpa using hful
        have h' := RxInv_add_notfull W s hdr d now hful' h
        have hr := ih (add_to_rx_buffer s hdr d now) _ h'
        simp only [runRx, writtenRx, hful', Bool.false_eq_true, if_false,
          List.singleton_append, List.cons_append, List.nil_append] at hr ⊢
        rw [List.append_cons W]
        exact hr
    | get =>
      have hg := RxInv_get W s h
      have hr := ih (CAN_GetReceivedPacket s).1 W hg.1
      simp only [runRx, writtenRx]
      refine ⟨hr.1, ?_⟩
      intro out hout
      rcases List.mem_append.mp hout with hout | hout
      · rcases hmo : (CAN_GetReceivedPacket s).2 with _ | pkt
        · rw [hmo] at hout
          simp at hout
        · rw [hmo] at hout
          simp only [Option.toList_some, List.mem_singleton] at hout
          subst hout
          exact List.mem_append_left _ (hg.2 out hmo)
      · exact hr.2 out hout

def RxOp.isAdd : RxOp → Bool
  | RxOp.add _ _ _ => true
  | RxOp.get => false

theorem runRx_adds_count (A : List RxOp) :
    ∀ s : RxState, RxBounded s → (∀ op ∈ A, op.isAdd = true) →
      RxBounded (runRx s A).1 ∧
      rxCount (runRx s A).1 =
        min (rxCount s + A.length) (CAN_RX_BUFFER_SIZE - 1) ∧
      (runRx s A).2 = [] := by
  induction A with
  | nil =>
    intro s hb _
    refine ⟨hb, ?_, rfl⟩
    simp only [runRx, List.length_nil, Nat.add_zero]
    have hc : rxCount s < CAN_RX_BUFFER_SIZE := by
      simp only [rxCount, CAN_RX_BUFFER_SIZE]
      omega
    have h32 : CAN_RX_BUFFER_SIZE = 32 := rfl
    omega
  | cons op rest ih =>
    intro s hb hA
    cases op with
    | add hdr d now =>
      have hrest : ∀ op ∈ rest, op.isAdd = true :=
        fun op hop => hA op (List.mem_cons_of_mem _ hop)
      have hb' := rxBounded_add s hdr d now hb
      simp only [runRx]
      by_cases hful : is_rx_buffer_full s = true
      · have hcnt := rxCount_add_full s hdr d now hful
        have hful31 := (is_rx_buffer_full_iff s hb).mp hful
        have hr := ih (add_to_rx_buffer s hdr d now) hb' hrest
        refine ⟨hr.1, ?_, hr.2.2⟩
        rw [hr.2.1, hcnt, hful31]
        simp only [List.length_cons, CAN_RX_BUFFER_SIZE]
        omega
      · have hful' : is_rx_buffer_full s = false := by simpa using hful
        have hcnt := rxCount_add_notfull s hdr d now hb hful'
        have hlt : rxCount s ≠ CAN_RX_BUFFER_SIZE - 1 :=
          fun h31 => by
            rw [(is_rx_buffer_full_iff s hb).mpr h31] at hful'
            exact absurd hful' (by simp)
        have hr := ih (add_to_rx_buffer s hdr d now) hb' hrest
        refine ⟨hr.1, ?_, hr.2.2⟩
        rw [hr.2.1, hcnt]
        simp only [List.length_cons, CAN_RX_BUFFER_SIZE] at *
        omega
    | get =>
      have := hA RxOp.get (List.mem_cons_self _ _)
      simp [RxOp.isAdd] at this

theorem runRx_gets_count (M : Nat) :
    ∀ s : RxState, RxBounded s → M ≤ rxCount s →
      rxCount (runRx s (List.replicate M RxOp.get)).1 = rxCount s - M ∧
      (runRx s (List.replicate M RxOp.get)).2.length = M := by
  induction M with
  | zero =>
    intro s hb _
    simp [runRx]
  | succ m ih =>
    intro s hb hM
    have hpos : 0 < rxCount s := by omega
    have hemp' : is_rx_buffer_empty s = false := by
      rcases h : is_rx_buffer_empty s with _ | _
      · rfl
      · exact absurd ((is_rx_buffer_empty_iff s hb).mp h) (by omega)
    have hb' := rxBounded_get s hb
    have hcnt := rxCount_get_notempty s hb hemp'
    have hr := ih (CAN_GetReceivedPacket s).1 hb' (by omega)
    simp only [List.replicate_succ, runRx]
    refine ⟨?_, ?_⟩
    · rw [hr.1, hcnt]
      omega
    · have hsome : (CAN_GetReceivedPacket s).2 =
          some (s.rx_buffer s.rx_buffer_tail) := by
        unfold CAN_GetReceivedPacket
        rw [if_neg (by simp [hemp'])]
      simp only [List.length_append, hr.2, hsome, Option.toList_some,
        List.length_singleton]
      omega

theorem runRx_append (l1 : List RxOp) :
    ∀ (l2 : List RxOp) (s : RxState),
      runRx s (l1 ++ l2) =
        ((runRx (runRx s l1).1 l2).1,
         (runRx s l1).2 ++ (runRx (runRx s l1).1 l2).2) := by
  induction l1 with
  | nil => intro l2 s; simp [runRx]
  | cons op rest ih =>
    intro l2 s
    cases op with
    | add hdr d now =>
      simp only [List.cons_append, runRx]
      exact ih l2 (add_to_rx_buffer s hdr d now)
    | get =>
      simp only [List.cons_append, runRx]
      rw [List.append_eq, ih l2 (CAN_GetReceivedPacket s).1]
      simp [List.append_assoc]

/-- Concrete hardware header for the C3 counterexample and witness. -/
def c3Hdr : FDCAN_RxHeader :=
  { Identifier := 0x10, IdType := 0, DataLength := 0, FilterIndex := 0 }

/-- Concrete op sequence for the C3 counterexample: 32 inbound frames (one of
which is dropped by the full buffer) followed by one successful get. -/
def c3Ops : List RxOp :=
  List.replicate 32 (RxOp.add c3Hdr (fun _ => 0) 0) ++ [RxOp.get]

set_option maxRecDepth 4000 in
/-- Counterexample to C3 as stated: 32 adds (N = 32, one frame dropped by the
full ring) followed by 1 successful get (M = 1) leave 30 stored frames, not
`min (N - M) (C - 1) = 31`. -/
theorem rx_ring_count_formula_cex :
    (runRx initRxState c3Ops).2.length = 1 ∧
    rxCount (runRx initRxState c3Ops).1 ≠
      min (32 - 1) (CAN_RX_BUFFER_SIZE - 1) := by
  refine ⟨by decide, by decide⟩

/-- C3 amended: the head and tail indices always stay in `[0, C)` for
`C = CAN_RX_BUFFER_SIZE`, "full" is defined as `(head+1) mod C = tail`, after
`N` adds followed by `M` gets with `M ≤ min N (C-1)` all `M` gets succeed and
the stored count is `min N (C-1) - M` (under drop-newest, a dropped frame
reduces the count permanently, so the original `min (N-M) (C-1)` is wrong),
and no successful get ever returns a frame that was not previously written
into the ring. -/
theorem rx_ring_amended :
    (∀ ops : List RxOp, RxBounded (runRx initRxState ops).1) ∧
    (∀ s : RxState, is_rx_buffer_full s =
       ((s.rx_buffer_head + 1) % CAN_RX_BUFFER_SIZE == s.rx_buffer_tail)) ∧
    (∀ (A : List RxOp) (M : Nat), (∀ op ∈ A, op.isAdd = true) →
       M ≤ min A.length (CAN_RX_BUFFER_SIZE - 1) →
       rxCount (runRx initRxState (A ++ List.replicate M RxOp.get)).1 =
         min A.length (CAN_RX_BUFFER_SIZE - 1) - M ∧
       (runRx initRxState (A ++ List.replicate M RxOp.get)).2.length = M) ∧
    (∀ (ops : List RxOp) (out : NightCANReceivePacket),
       out ∈ (runRx initRxState ops).2 → out ∈ writtenRx initRxState ops) := by
  have hbinit : RxBounded initRxState := by
    constructor <;> simp [initRxState, CAN_RX_BUFFER_SIZE]
  have h0 : rxCount initRxState = 0 := by simp [rxCount, initRxState]
  have hinvinit : RxInv [] initRxState := by
    refine ⟨hbinit, ?_⟩
    intro k hk
    rw [h0] at hk
    omega
  have h32 : CAN_RX_BUFFER_SIZE = 32 := rfl
  refine ⟨?_, ?_, ?_, ?_⟩
  · intro ops
    exact rxBounded_runRx ops initRxState hbinit
  · intro s
    rfl
  · intro A M hA hM
    have hadds := runRx_adds_count A initRxState hbinit hA
    rw [h0, Nat.zero_add] at hadds
    have hgets := runRx_gets_count M (runRx initRxState A).1 hadds.1
      (by rw [hadds.2.1]; omega)
    rw [runRx_append]
    refine ⟨?_, ?_⟩
    · show rxCount (runRx (runRx initRxState A).1 (List.replicate M RxOp.get)).1 = _
      rw [hgets.1, hadds.2.1]
    · show ((runRx initRxState A).2 ++
          (runRx (runRx initRxState A).1 (List.replicate M RxOp.get)).2).length = M
      rw [hadds.2.2, List.nil_append, hgets.2]
  · intro ops out hout
    have := (runRx_inv ops initRxState [] hinvinit).2 out hout
    simpa using this

/-- Concrete three adds for the C3 witness. -/
def c3wAdds : List RxOp := List.replicate 3 (RxOp.add c3Hdr (fun _ => 0) 0)

/-- Witness for C3 (amended) at a concrete input: three adds then one get. -/
theorem rx_ring_amended_witness :
    rxCount (runRx initRxState (c3wAdds ++ List.replicate 1 RxOp.get)).1 =
      min c3wAdds.length (CAN_RX_BUFFER_SIZE - 1) - 1 ∧
    (runRx initRxState (c3wAdds ++ List.replicate 1 RxOp.get)).2.length = 1 :=
  rx_ring_amended.2.2.1 c3wAdds 1 (by decide) (by decide)

/-- C9: the receive-path payload copy is clamped — `add_to_rx_buffer` copies
`len_to_copy = min(DLC, 8) ≤ 8` bytes, so whatever data length the hardware
header reports, no byte of any slot at an index `≥ 8` (outside the fixed
8-byte `data` buffer) is ever written. -/
theorem add_to_rx_buffer_clamped (s : RxState) (hdr : FDCAN_RxHeader)
    (d : Nat → Nat) (now : Nat) (j i : Nat) (hi : 8 ≤ i) :
    ((add_to_rx_buffer s hdr d now).rx_buffer j).data i =
      (s.rx_buffer j).data i ∧
    len_to_copy hdr.DataLength ≤ 8 := by
  have hlen : len_to_copy hdr.DataLength ≤ 8 := by
    unfold len_to_copy
    split <;> omega
  refine ⟨?_, hlen⟩
  unfold add_to_rx_buffer
  split
  · rfl
  · dsimp only
    by_cases hj : j = s.rx_buffer_head
    · rw [if_pos hj, hj]
      unfold mkRxPacket copyBytes
      dsimp only
      rw [if_neg (by omega)]
    · rw [if_neg hj]

/-- Witness for C9 at a concrete input: a hardware header reporting a data
length of 64 writes no byte at index 8 of slot 0. -/
theorem add_to_rx_buffer_clamped_witness :
    ((add_to_rx_buffer initRxState
        { Identifier := 0, IdType := 0, DataLength := 64, FilterIndex := 0 }
        (fun _ => 0xFF) 0).rx_buffer 0).data 8 =
      (initRxState.rx_buffer 0).data 8 ∧
    len_to_copy 64 ≤ 8 :=
  add_to_rx_buffer_clamped initRxState
    { Identifier := 0, IdType := 0, DataLength := 64, FilterIndex := 0 }
    (fun _ => 0xFF) 0 0 8 (by decide)

/-- C6: `CAN_Init` returns `CAN_INVALID_PARAM` when the instance or HAL
handle pointer is NULL, `CAN_MAX_INSTANCES_REACHED` when the registry is at
capacity, and on a failing setup step (notification activation or peripheral
start — the filter-configuration calls are commented out in this revision and
cannot fail) it rolls the registry back to its pre-call state, returns
`CAN_ERROR` and leaves the instance with `initialized = false`; only when
every step succeeds is `initialized` set and `CAN_OK` returned, with the
instance appended to the registry. -/
theorem CAN_Init_spec (reg : List InstId) (st : InstStore)
    (inst? : Option InstId) (hcan? : Option Handle) (notifOk startOk : Bool) :
    (inst? = none ∨ hcan? = none →
       CAN_Init reg st inst? hcan? notifOk startOk =
         (reg, st, CAN_INVALID_PARAM)) ∧
    (∀ i h, inst? = some i → hcan? = some h →
       MAX_CAN_INSTANCES ≤ reg.length →
       CAN_Init reg st inst? hcan? notifOk startOk =
         (reg, st, CAN_MAX_INSTANCES_REACHED)) ∧
    (∀ i h, inst? = some i → hcan? = some h →
       reg.length < MAX_CAN_INSTANCES → (notifOk = false ∨ startOk = false) →
       (CAN_Init reg st inst? hcan? notifOk startOk).2.2 = CAN_ERROR ∧
       (CAN_Init reg st inst? hcan? notifOk startOk).1 = reg ∧
       ((CAN_Init reg st inst? hcan? notifOk startOk).2.1 i).initialized =
         false) ∧
    (∀ i h, inst? = some i → hcan? = some h →
       reg.length < MAX_CAN_INSTANCES → notifOk = true → startOk = true →
       CAN_Init reg st inst? hcan? notifOk startOk =
         (reg ++ [i],
          storeUpdate
            (storeUpdate st i { hcan := some h, initialized := false }) i
            { hcan := some h, initialized := true },
          CAN_OK) ∧
       ((CAN_Init reg st inst? hcan? notifOk startOk).2.1 i).initialized =
         true) := by
  refine ⟨?_, ?_, ?_, ?_⟩
  · rintro (h | h) <;> cases inst? <;> cases hcan? <;>
      simp_all [CAN_Init]
  · rintro i h rfl rfl hcap
    simp [CAN_Init, hcap]
  · rintro i h rfl rfl hcap hf
    have hcap' : ¬ MAX_CAN_INSTANCES ≤ reg.length := Nat.not_le.mpr hcap
    rcases hf with hf | hf <;> subst hf
    · simp [CAN_Init, hcap', storeUpdate]
    · cases notifOk
      · simp [CAN_Init, hcap', storeUpdate]
      · simp [CAN_Init, hcap', storeUpdate]
  · rintro i h rfl rfl hcap rfl rfl
    have hcap' : ¬ MAX_CAN_INSTANCES ≤ reg.length := Nat.not_le.mpr hcap
    refine ⟨by simp [CAN_Init, hcap'], ?_⟩
    simp [CAN_Init, hcap', storeUpdate]

/-- Witness for C6 at concrete inputs: a failing start rolls back (registry
restored, instance uninitialized, `CAN_ERROR`), and a fully successful init
appends to the registry and initializes the instance with `CAN_OK`. -/
theorem CAN_Init_spec_witness :
    ((CAN_Init [] (fun _ => { hcan := none, initialized := false })
        (some 0) (some 5) true false).2.2 = CAN_ERROR ∧
     (CAN_Init [] (fun _ => { hcan := none, initialized := false })
        (some 0) (some 5) true false).1 = [] ∧
     ((CAN_Init [] (fun _ => { hcan := none, initialized := false })
        (some 0) (some 5) true false).2.1 0).initialized = false) ∧
    (CAN_Init [] (fun _ => { hcan := none, initialized := false })
        (some 0) (some 5) true true =
       ([] ++ [0],
        storeUpdate
          (storeUpdate (fun _ => { hcan := none, initialized := false }) 0
            { hcan := some 5, initialized := false }) 0
          { hcan := some 5, initialized := true },
        CAN_OK) ∧
     ((CAN_Init [] (fun _ => { hcan := none, initialized := false })
        (some 0) (some 5) true true).2.1 0).initialized = true) :=
  ⟨(CAN_Init_spec [] (fun _ => { hcan := none, initialized := false })
      (some 0) (some 5) true false).2.2.1 0 5 rfl rfl (by decide)
      (Or.inr rfl),
   (CAN_Init_spec [] (fun _ => { hcan := none, initialized := false })
      (some 0) (some 5) true true).2.2.2 0 5 rfl rfl (by decide) rfl rfl⟩

theorem find?_congr_on {α : Type} (p q : α → Bool) :
    ∀ l : List α, (∀ x ∈ l, p x = q x) → l.find? p = l.find? q := by
  intro l
  induction l with
  | nil => intro _; rfl
  | cons a rest ih =>
    intro hpq
    have ha := hpq a (List.mem_cons_self _ _)
    simp only [List.find?_cons, ha]
    split
    · rfl
    · exact ih (fun x hx => hpq x (List.mem_cons_of_mem _ hx))

/-- C10: calling `CAN_Init` with a HAL handle that is already registered,
while the registry is below capacity and the HAL setup succeeds, does not
fail and does not replace the existing entry — the new instance is appended
as a second registry entry — and `find_instance` (used by the hardware
receive callbacks) still resolves that handle to the earliest-registered
instance, which is distinct from the newly registered one. -/
theorem CAN_Init_duplicate_handle (reg : List InstId) (st : InstStore)
    (i j : InstId) (h : Handle)
    (hfind : find_instance reg st h = some j) (hni : i ∉ reg)
    (hlen : reg.length < MAX_CAN_INSTANCES) :
    (CAN_Init reg st (some i) (some h) true true).2.2 = CAN_OK ∧
    (CAN_Init reg st (some i) (some h) true true).1 = reg ++ [i] ∧
    find_instance (CAN_Init reg st (some i) (some h) true true).1
      (CAN_Init reg st (some i) (some h) true true).2.1 h = some j ∧
    j ≠ i := by
  have hcap' : ¬ MAX_CAN_INSTANCES ≤ reg.length := Nat.not_le.mpr hlen
  have hres : CAN_Init reg st (some i) (some h) true true =
      (reg ++ [i],
       storeUpdate
         (storeUpdate st i { hcan := some h, initialized := false }) i
         { hcan := some h, initialized := true },
       CAN_OK) := by
    simp [CAN_Init, hcap']
  have hjm : j ∈ reg := List.mem_of_find?_eq_some hfind
  have hji : j ≠ i := fun hq => hni (hq ▸ hjm)
  rw [hres]
  refine ⟨rfl, rfl, ?_, hji⟩
  unfold find_instance at hfind ⊢
  have hcongr := find?_congr_on
    (fun x => ((storeUpdate
        (storeUpdate st i { hcan := some h, initialized := false }) i
        { hcan := some h, initialized := true }) x).hcan == some h)
    (fun x => (st x).hcan == some h) reg
    (fun x hx => by
      have hxi : x ≠ i := fun hq => hni (hq ▸ hx)
      simp [storeUpdate, hxi])
  rw [List.find?_append, hcongr, hfind]
  rfl

/-- Witness for C10 at concrete inputs: instance 1 registered for handle 5,
then instance 2 initialized with the same handle; lookup still yields 1. -/
theorem CAN_Init_duplicate_handle_witness :
    (CAN_Init [1] (fun q => if q = 1
        then { hcan := some 5, initialized := true }
        else { hcan := none, initialized := false })
      (some 2) (some 5) true true).2.2 = CAN_OK ∧
    (CAN_Init [1] (fun q => if q = 1
        then { hcan := some 5, initialized := true }
        else { hcan := none, initialized := false })
      (some 2) (some 5) true true).1 = [1] ++ [2] ∧
    find_instance
      (CAN_Init [1] (fun q => if q = 1
          then { hcan := some 5, initialized := true }
          else { hcan := none, initialized := false })
        (some 2) (some 5) true true).1
      (CAN_Init [1] (fun q => if q = 1
          then { hcan := some 5, initialized := true }
          else { hcan := none, initialized := false })
        (some 2) (some 5) true true).2.1 5 = some 1 ∧
    (1 : InstId) ≠ 2 :=
  CAN_Init_duplicate_handle [1]
    (fun q => if q = 1
      then { hcan := some 5, initialized := true }
      else { hcan := none, initialized := false })
    2 1 5 (by decide) (by decide) (by decide)

/-- Stale receive packet for the C7 evaluation: old payload bytes present but
`is_recent` cleared. -/
def c7Pkt : NightCANReceivePacket :=
  { zeroRxPacket with data := fun _ => 17, is_recent := false }

/-- C7: on a receive entry with `is_recent = false`, `CAN_readInt` does
return the caller-supplied default (here 42), but `CAN_readFloat` returns the
literal `0.0f` and ignores its `default` macro argument (here 3/2): the
macro's `default` parameter does not occur in its body (night_can.h lines
313-317), contradicting the claim for the scaled-float accessor. -/
theorem CAN_readFloat_ignores_default :
    CAN_readInt c7Pkt 0 2 42 = 42 ∧
    CAN_readFloat c7Pkt 0 2 (1/100 : ℚ) (3/2 : ℚ) = 0 ∧
    (3/2 : ℚ) ≠ 0 := by
  refine ⟨rfl, rfl, by norm_num⟩

/-! ## Codec round-trip lemmas (C8) -/

theorem readBytesLE_congr (d1 d2 : Nat → Nat) :
    ∀ (w start : Nat),
      (∀ i, start ≤ i → i < start + w → d1 i = d2 i) →
      readBytesLE d1 start w = readBytesLE d2 start w := by
  intro w
  induction w with
  | zero => intro start _; rfl
  | succ v ih =>
    intro start hagree
    simp only [readBytesLE]
    rw [hagree start (le_refl _) (by omega),
      ih (start + 1) (fun i h1 h2 => hagree i (by omega) (by omega))]

theorem readBytesLE_writeBytesLE (data : Nat → Nat) :
    ∀ (w start n : Nat),
      readBytesLE (writeBytesLE data start w n) start w = n % 256 ^ w := by
  intro w
  induction w with
  | zero => intro start n; simp [readBytesLE, Nat.mod_one]
  | succ v ih =>
    intro start n
    simp only [readBytesLE]
    have h0 : writeBytesLE data start (v + 1) n start = n % 256 := by
      unfold writeBytesLE
      rw [if_pos ⟨le_refl _, by omega⟩]
      simp
    have hcongr : readBytesLE (writeBytesLE data start (v + 1) n)
        (start + 1) v =
        readBytesLE (writeBytesLE data (start + 1) v (n / 256))
          (start + 1) v := by
      apply readBytesLE_congr
      intro i h1 h2
      unfold writeBytesLE
      rw [if_pos ⟨by omega, by omega⟩, if_pos ⟨h1, by omega⟩]
      have hk : i - start = (i - (start + 1)) + 1 := by omega
      rw [hk, pow_succ', Nat.div_div_eq_div_mul]
    rw [h0, hcongr, ih, pow_succ', Nat.mod_mul]

/-- Fresh receive packet holding an encoded float for the C8 counterexample:
0.019 written with precision 0.01 as a 16-bit integer at offset 0. -/
def c8Pkt : NightCANReceivePacket :=
  { zeroRxPacket with
    data := CAN_writeFloat (fun _ => 0) 0 2 (19/1000 : ℚ) (1/100 : ℚ),
    is_recent := true }

/-- Counterexample to C8 as stated: the C cast truncates toward zero rather
than rounding, so writing v = 0.019 with precision p = 0.01 stores
trunc(1.9) = 1 and reads back 0.01, which is 0.009 from v — more than
p/2 = 0.005. -/
theorem CAN_float_roundtrip_cex :
    ¬ |CAN_readFloat c8Pkt 0 2 (1/100 : ℚ) 0 - 19/1000| ≤ (1/100 : ℚ) / 2 := by
  have hdiv : (19/1000 : ℚ) / (1/100) = 19/10 := by norm_num
  have hfl : ⌊(19 : ℚ)/10⌋ = 1 := by
    rw [Int.floor_eq_iff] <;> norm_num
  have htr : truncToZero ((19/1000 : ℚ) / (1/100)) = 1 := by
    unfold truncToZero
    rw [hdiv, if_pos (by norm_num), hfl]
  have hread : readBytesLE
      (CAN_writeFloat (fun _ => 0) 0 2 (19/1000 : ℚ) (1/100 : ℚ)) 0 2 = 1 := by
    unfold CAN_writeFloat
    rw [readBytesLE_writeBytesLE, htr]
    rfl
  have hval : CAN_readFloat c8Pkt 0 2 (1/100 : ℚ) 0 = 1/100 := by
    simp only [CAN_readFloat, c8Pkt]
    rw [if_pos trivial, hread]
    norm_num
  rw [hval]
  have hd : (1/100 : ℚ) - 19/1000 = -(9/1000) := by norm_num
  rw [hd, abs_neg, abs_of_nonneg (by norm_num : (0 : ℚ) ≤ 9/1000)]
  norm_num

/-- C8 amended: the codec encodes by `storedInteger = trunc(value /
precision)` (truncation toward zero, the C float-to-integer cast) and decodes
by `value = storedInteger * precision`; hence for every value `v ≥ 0`,
precision `p > 0` and offset leaving room for the integer width, writing `v`
and reading it back (with `is_recent` set) yields a value within `p`
(strictly) of `v` — but not within `p/2` in general, as the counterexample
shows.  Arithmetic is modelled exactly over the rationals. -/
theorem CAN_float_roundtrip (pkt : NightCANReceivePacket) (data : Nat → Nat)
    (v p : ℚ) (start width : Nat) (dflt : ℚ)
    (hv : 0 ≤ v) (hp : 0 < p) (hroom : start + width ≤ 8)
    (hfit : (truncToZero (v / p)).toNat < 256 ^ width) :
    |CAN_readFloat
        { pkt with data := CAN_writeFloat data start width v p,
                   is_recent := true } start width p dflt - v| < p := by
  have hq0 : 0 ≤ v / p := div_nonneg hv hp.le
  have htr : truncToZero (v / p) = ⌊v / p⌋ := by
    unfold truncToZero
    rw [if_pos hq0]
  have hfl0 : 0 ≤ ⌊v / p⌋ := Int.floor_nonneg.mpr hq0
  have hread : readBytesLE (CAN_writeFloat data start width v p) start width =
      (truncToZero (v / p)).toNat := by
    unfold CAN_writeFloat
    rw [readBytesLE_writeBytesLE, Nat.mod_eq_of_lt hfit]
  have hval : CAN_readFloat
      { pkt with data := CAN_writeFloat data start width v p,
                 is_recent := true } start width p dflt =
      ((truncToZero (v / p)).toNat : ℚ) * p := by
    simp only [CAN_readFloat]
    rw [if_pos trivial, hread]
  rw [hval, htr]
  have hcast : ((⌊v / p⌋.toNat : ℚ)) = ((⌊v / p⌋ : ℤ) : ℚ) := by
    exact_mod_cast congrArg (fun z : ℤ => (z : ℚ)) (Int.toNat_of_nonneg hfl0)
  rw [hcast]
  have h1 : ((⌊v / p⌋ : ℤ) : ℚ) ≤ v / p := Int.floor_le _
  have h2 : v / p < ((⌊v / p⌋ : ℤ) : ℚ) + 1 := Int.lt_floor_add_one _
  have hvp : v / p * p = v := div_mul_cancel₀ v hp.ne'
  rw [abs_sub_lt_iff]
  constructor
  · nlinarith
  · nlinarith

/-- Witness for C8 (amended) at a concrete input: 4.85 at precision 0.01 as a
16-bit integer at offset 2 reads back within 0.01. -/
theorem CAN_float_roundtrip_witness :
    |CAN_readFloat
        { zeroRxPacket with
          data := CAN_writeFloat (fun _ => 0) 2 2 (97/20 : ℚ) (1/100 : ℚ),
          is_recent := true } 2 2 (1/100 : ℚ) 0 - 97/20| < (1/100 : ℚ) :=
  CAN_float_roundtrip zeroRxPacket (fun _ => 0) (97/20) (1/100) 2 2 0
    (by norm_num) (by norm_num) (by norm_num)
    (by
      have hdiv : (97/20 : ℚ) / (1/100) = 485 := by norm_num
      have hfl : ⌊(485 : ℚ)⌋ = 485 := by
        rw [Int.floor_eq_iff] <;> norm_num
      have htr : truncToZero ((97/20 : ℚ) / (1/100)) = 485 := by
        unfold truncToZero
        rw [hdiv, if_pos (by norm_num), hfl]
      rw [htr]
      norm_num)

end NightCAN
